import Mathlib

/-!
Verification of the core control logic of `homebridge-llm-control`.

The definitions below are a shallow embedding of the TypeScript sources:
  * `src/homebridge/hap-http-client.ts`   (protocol client, `setCharacteristics`)
  * `src/scheduler/job-scheduler.ts`      (durable one-shot scheduler)
  * `src/homebridge/homebridge-config.ts` (endpoint discovery and entity registry)
  * `src/platform.ts`                     (guardrail engine, `executeHealingActions`)

Modelling conventions:
  * JavaScript numbers are modelled at integer precision (`Int`); every value the
    verified code paths compare or store is an integer (ports, iids, timestamps in
    milliseconds, brightness percentages).
  * `Date.now()` / `Date.parse` / `toISOString` are environment effects; they are
    passed in as explicit parameters (`now : Int`, `parseDate : String → Option Int`,
    `isoOfTime : Int → String`).  A `Date.parse` producing `NaN` is modelled as `none`.
  * HTTP and shell execution results are passed in as explicit outcome values.
  * JavaScript `Map` / plain-object state is modelled as association lists with
    `Map.set` semantics (replace in place, else append).
-/

namespace LLMControl

/-! ## Character-level models of the JS string primitives

The string operations the sources use (`trim`, `toUpperCase`, `toLowerCase`,
`replace`, `includes`, `startsWith`, `endsWith`, numeric parsing) are modelled
structurally over the character list of a `String`, so that every definition
evaluates inside the kernel. -/

/-- The whitespace characters relevant to `String.prototype.trim` here. -/
def isJsWhitespace (c : Char) : Bool :=
  c = ' ' || c = '\t' || c = '\n' || c = '\r'

/-- JS `trim`: strip leading and trailing whitespace. -/
def jsTrim (s : String) : String :=
  ⟨((s.data.dropWhile isJsWhitespace).reverse.dropWhile isJsWhitespace).reverse⟩

/-- JS `toUpperCase` over ASCII. -/
def jsToUpper (s : String) : String :=
  ⟨s.data.map Char.toUpper⟩

/-- JS `toLowerCase` over ASCII. -/
def jsToLower (s : String) : String :=
  ⟨s.data.map Char.toLower⟩

/-- `username.replace(/:/g, '')`: remove every colon. -/
def stripColons (s : String) : String :=
  ⟨s.data.filter (fun c => c != ':')⟩

/-- JS `startsWith`. -/
def jsStartsWith (s pre : String) : Bool :=
  List.isPrefixOf pre.data s.data

/-- JS `endsWith`. -/
def jsEndsWith (s suf : String) : Bool :=
  List.isPrefixOf suf.data.reverse s.data.reverse

/-- The digit accumulator of decimal parsing. -/
def digitsVal (l : List Char) : Option Nat :=
  l.foldl
    (fun acc c =>
      match acc with
      | none => none
      | some n => if c.isDigit then some (n * 10 + (c.toNat - '0'.toNat)) else none)
    (some 0)

/-- JS `Number(string)` restricted to optionally signed decimal integer
numerals (the only numeric strings this model distinguishes; every value the
verified paths compare is an integer). -/
def jsToInt? (s : String) : Option Int :=
  match s.data with
  | [] => none
  | '-' :: rest =>
    if rest.isEmpty then none else (digitsVal rest).map (fun n => -(n : Int))
  | '+' :: rest =>
    if rest.isEmpty then none else (digitsVal rest).map (fun n => (n : Int))
  | l => (digitsVal l).map (fun n => (n : Int))

/-! ## Protocol client (`hap-http-client.ts`) -/

/-- A JSON value written to or read from a characteristic.  JS numbers are
modelled at integer precision. -/
inductive HapValue where
  | bool (b : Bool)
  | num (n : Int)
  | str (s : String)
  | null
deriving DecidableEq

/-- One entry of the `characteristics` array of a write request body
(`{aid, iid, value}` in `hap-http-client.ts`). -/
structure HapWrite where
  aid : Nat
  iid : Nat
  value : HapValue
deriving DecidableEq

/-- One entry of the `characteristics` array of a 207 multi-status response body:
`{ status?: number; aid?: number; iid?: number }`.  All fields are optional in the
source type. -/
structure WriteResultEntry where
  aid : Option Int
  iid : Option Int
  status : Option Int
deriving DecidableEq

/-- The three response shapes `setCharacteristics` distinguishes: HTTP 204,
HTTP 207 with an optional `characteristics` array in the body, and any other
status with its body text. -/
inductive WriteResponse where
  | noContent
  | multiStatus (characteristics : Option (List WriteResultEntry))
  | other (status : Nat) (body : String)
deriving DecidableEq

/-- The failures `setCharacteristics` can throw: per-entry characteristic errors
from a 207 body, or a hard HTTP failure carrying status and body. -/
inductive WriteFailure where
  | characteristicErrors (failures : List WriteResultEntry)
  | httpError (status : Nat) (body : String)
deriving DecidableEq

/-- The filter predicate of `hap-http-client.ts` line 77:
`typeof item.status === 'number' && item.status !== 0`. -/
def entryFailed (e : WriteResultEntry) : Bool :=
  match e.status with
  | some s => s != 0
  | none => false

/-- `HapHttpClient.setCharacteristics` (lines 58–86), as a function of the HTTP
response: 204 → success; 207 → success iff no entry has a numeric non-zero
status, else failure carrying the failing entries (a missing `characteristics`
array is treated as empty via `?? []`); any other status → hard failure with
status and body. -/
def setCharacteristics (resp : WriteResponse) : Except WriteFailure Unit :=
  match resp with
  | .noContent => .ok ()
  | .multiStatus characteristics =>
    let failures := (characteristics.getD []).filter entryFailed
    if failures.isEmpty then .ok ()
    else .error (.characteristicErrors failures)
  | .other status body => .error (.httpError status body)

/-! ## Durable scheduler (`job-scheduler.ts`) -/

/-- `OneShotJobAction`: either set an entity's state or restart the host. -/
inductive OneShotJobAction where
  | setHbEntity (entityId : String) (onValue : Option Bool) (brightness : Option Int)
  | restartHomebridge (reason : String)
deriving DecidableEq

/-- `OneShotJob`: a persisted one-shot scheduled action. `runAt` is an ISO
timestamp string, parsed by the environment's `Date.parse`. -/
structure OneShotJob where
  id : String
  createdAt : String
  runAt : String
  action : OneShotJobAction
deriving DecidableEq

/-- What `JobScheduler.runJob` (lines 93–103) does for one firing: the executor
is invoked (its outcome is `execResult`), a warning is logged on failure, and in
the `finally` step the job is removed from the current job list and the pruned
list is persisted. -/
structure RunJobResult where
  executions : List OneShotJob
  warned : Option String
  persisted : List OneShotJob
deriving DecidableEq

/-- `JobScheduler.runJob`: try the executor once, log a warning if it threw, and
unconditionally persist the job list with this job filtered out. -/
def runJob (job : OneShotJob) (execResult : Except String Unit)
    (currentJobs : List OneShotJob) : RunJobResult :=
  { executions := [job]
  , warned :=
      match execResult with
      | .ok _ => none
      | .error msg => some ("[LLMControl] Job " ++ job.id ++ " failed: " ++ msg)
  , persisted := currentJobs.filter (fun j => j.id != job.id) }

/-- The pruning filter of `JobScheduler.sync` (lines 43–46): keep a job iff its
`runAt` parses and lies strictly in the future. -/
def pruneJobs (parseDate : String → Option Int) (now : Int)
    (jobs : List OneShotJob) : List OneShotJob :=
  jobs.filter fun job =>
    match parseDate job.runAt with
    | some runAt => decide (now < runAt)
    | none => false

/-- Observable effects of the timer-arming loop of `sync`: a timer armed for a
job with a clamped delay, or the job run immediately because no time remained
when `scheduleNext` sampled the clock. -/
inductive SchedEvent where
  | armed (job : OneShotJob) (chunkMs : Int)
  | ran (job : OneShotJob)
deriving DecidableEq

/-- The job a scheduling event concerns. -/
def SchedEvent.job : SchedEvent → OneShotJob
  | .armed j _ => j
  | .ran j => j

/-- The arming loop of `sync` (lines 62–90).  `now2` models the `Date.now()` of
line 68 and `now3` the `Date.now()` inside `scheduleNext` (line 75); `timers` is
the set of job ids that already have an active timer.  For each surviving job
without a timer: skip if `runAt` does not parse or its delay is non-positive;
otherwise `scheduleNext` either runs the job at once (no time remaining) or arms
a timer for `min(remaining, 2_000_000_000)` ms and records the timer id. -/
def armJobs (parseDate : String → Option Int) (now2 now3 : Int) :
    List String → List OneShotJob → List String × List SchedEvent
  | timers, [] => (timers, [])
  | timers, job :: rest =>
    if job.id ∈ timers then armJobs parseDate now2 now3 timers rest
    else
      match parseDate job.runAt with
      | none => armJobs parseDate now2 now3 timers rest
      | some runAt =>
        if runAt - now2 ≤ 0 then armJobs parseDate now2 now3 timers rest
        else
          let remaining := runAt - now3
          if remaining ≤ 0 then
            let tail := armJobs parseDate now2 now3 timers rest
            (tail.1, .ran job :: tail.2)
          else
            let tail := armJobs parseDate now2 now3 (job.id :: timers) rest
            (tail.1, .armed job (min remaining 2000000000) :: tail.2)

/-- The outcome of one `JobScheduler.sync` call: the surviving job list, the
list persisted (only when pruning removed something), the timer ids alive after
the call, and the arming/run events. -/
structure SyncResult where
  nextJobs : List OneShotJob
  persisted : Option (List OneShotJob)
  timers : List String
  events : List SchedEvent
deriving DecidableEq

/-- `JobScheduler.sync` (lines 38–91).  `now1` models the `Date.now()` of line
40 used for pruning; `now2`/`now3` the later clock samples of the arming loop;
`timers0` the timers active before the call.  Jobs with unparsable or
non-future `runAt` are dropped and the pruned list persisted when anything was
dropped; timers for removed jobs are cleared; remaining jobs without a timer
are armed. -/
def sync (parseDate : String → Option Int) (now1 now2 now3 : Int)
    (timers0 : List String) (jobs : List OneShotJob) : SyncResult :=
  let nextJobs := pruneJobs parseDate now1 jobs
  let persisted := if nextJobs.length ≠ jobs.length then some nextJobs else none
  let wanted := nextJobs.map (fun j => j.id)
  let keptTimers := timers0.filter (fun id => id ∈ wanted)
  let armed := armJobs parseDate now2 now3 keptTimers nextJobs
  { nextJobs := nextJobs
  , persisted := persisted
  , timers := armed.1
  , events := armed.2 }

/-! ## Entity registry data model (`homebridge-config.ts`, `HomebridgeAccessoryControl`) -/

/-- `HapCharacteristic` of `hap-http-client.ts`: `{iid, type, perms?, value?}`
(the `format`/`description` fields are never read by the verified paths). -/
structure HapCharacteristic where
  iid : Nat
  type : String
  perms : Option (List String)
  value : Option HapValue
deriving DecidableEq

/-- `HapService`: `{iid, type, characteristics}`. -/
structure HapService where
  iid : Nat
  type : String
  characteristics : List HapCharacteristic
deriving DecidableEq

/-- `HapAccessory`: `{aid, services}`. -/
structure HapAccessory where
  aid : Nat
  services : List HapService
deriving DecidableEq

/-- The source of a discovered bridge endpoint: the main bridge or a child
bridge (`HapBridgeEndpoint.source`). -/
inductive BridgeSource where
  | main
  | child
deriving DecidableEq

/-- `HapBridgeEndpoint` of `homebridge-config.ts`: a discovered control
endpoint. -/
structure HapBridgeEndpoint where
  username : String
  port : Int
  pin : String
  name : String
  source : BridgeSource
deriving DecidableEq

/-- `HbEntityType`: the three supported service kinds. -/
inductive HbEntityType where
  | switch
  | light
  | outlet
deriving DecidableEq

/-- The `bridge` field of an `HbEntity`. -/
structure HbBridgeRef where
  username : String
  name : String
  port : Int
deriving DecidableEq

/-- The `hap` field of an `HbEntity`: the protocol address of the entity. -/
structure HbHapAddress where
  aid : Nat
  serviceIid : Nat
  onIid : Nat
  brightnessIid : Option Nat
deriving DecidableEq

/-- The `state` field of an `HbEntity`: the observed state. -/
structure HbEntityState where
  onValue : Bool
  brightness : Option Int
deriving DecidableEq

/-- `HbEntity` of `homebridge-control.ts`: a controllable entity. -/
structure HbEntity where
  id : String
  name : String
  type : HbEntityType
  bridge : HbBridgeRef
  hap : HbHapAddress
  state : HbEntityState
deriving DecidableEq

/-- `HbEntityPatch`: `{on?, brightness?}`. -/
structure HbEntityPatch where
  onValue : Option Bool
  brightness : Option Int
deriving DecidableEq

/-- The service/characteristic UUID table built in the constructor from the
host HAP definitions (`serviceUuids` and `characteristicUuids`). -/
structure HapUuids where
  serviceSwitch : String
  serviceLight : String
  serviceOutlet : String
  charName : String
  charOn : String
  charBrightness : String
  serviceAccessoryInformation : String
deriving DecidableEq

/-- `serviceUuids[entityType]`. -/
def entityTypeUuid (u : HapUuids) : HbEntityType → String
  | .switch => u.serviceSwitch
  | .light => u.serviceLight
  | .outlet => u.serviceOutlet

/-- `getStringValue`: a characteristic's value when it is a non-blank string,
trimmed. -/
def getStringValue (c : HapCharacteristic) : Option String :=
  match c.value with
  | some (.str s) => if (jsTrim s).length > 0 then some (jsTrim s) else none
  | _ => none

/-- `getBoolValue`: JS coercion of a characteristic value to a boolean
(`true`/`on`/`1` strings are true, `false`/`off`/`0` strings are false,
numbers are compared with 1, everything else is false). -/
def getBoolValue : Option HapValue → Bool
  | some (.bool b) => b
  | some (.num n) => n == 1
  | some (.str s) =>
    let lower := jsToLower s
    if lower = "true" || lower = "on" || lower = "1" then true
    else false
  | _ => false

/-- `getNumberValue`: a finite number is kept; a non-blank numeric string is
parsed (modelled for integer numerals); anything else is `undefined`. -/
def getNumberValue : Option HapValue → Option Int
  | some (.num n) => some n
  | some (.str s) => if (jsTrim s).isEmpty then none else jsToInt? (jsTrim s)
  | _ => none

/-- `getAccessoryName` (lines 519–529): the trimmed Name characteristic of the
AccessoryInformation service, when present. -/
def getAccessoryName (u : HapUuids) (services : List HapService) : Option String :=
  match services.find? (fun svc => svc.type == u.serviceAccessoryInformation) with
  | none => none
  | some info =>
    match info.characteristics.find? (fun c => c.type == u.charName) with
    | none => none
    | some nameChar => getStringValue nameChar

/-- `buildEntityFromService` (lines 470–517): requires a writable (`pw`) On
characteristic; derives the display name from accessory and service names;
looks for a Brightness characteristic only for lights. -/
def buildEntityFromService (u : HapUuids) (bridge : HapBridgeEndpoint) (aid : Nat)
    (accessoryName : String) (entityType : HbEntityType) (service : HapService) :
    Option HbEntity :=
  match service.characteristics.find? (fun c => c.type == u.charOn) with
  | none => none
  | some onChar =>
    match onChar.perms with
    | none => none
    | some perms =>
      if "pw" ∈ perms then
        let serviceName :=
          match service.characteristics.find? (fun c => c.type == u.charName) with
          | some c => getStringValue c
          | none => none
        let name :=
          match serviceName with
          | some sn => if sn ≠ accessoryName then accessoryName ++ " - " ++ sn else accessoryName
          | none => accessoryName
        let brightnessChar :=
          if entityType = .light then
            service.characteristics.find? (fun c => c.type == u.charBrightness)
          else none
        some
          { id := bridge.username ++ ":" ++ toString aid ++ ":" ++ toString service.iid
          , name := name
          , type := entityType
          , bridge := { username := bridge.username, name := bridge.name, port := bridge.port }
          , hap :=
              { aid := aid
              , serviceIid := service.iid
              , onIid := onChar.iid
              , brightnessIid := brightnessChar.map (fun c => c.iid) }
          , state :=
              { onValue := getBoolValue onChar.value
              , brightness :=
                  if entityType = .light then getNumberValue (brightnessChar.bind (fun c => c.value))
                  else none } }
      else none

/-- The entity-construction part of `buildEntitiesFromAccessories` (lines
434–447), before name disambiguation: for each accessory, for each supported
kind in declaration order, every service of that kind that yields an entity. -/
def rawEntities (u : HapUuids) (bridge : HapBridgeEndpoint)
    (accessories : List HapAccessory) : List HbEntity :=
  accessories.flatMap fun accessory =>
    let accessoryName :=
      (getAccessoryName u accessory.services).getD ("Accessory " ++ toString accessory.aid)
    [HbEntityType.switch, HbEntityType.light, HbEntityType.outlet].flatMap fun entityType =>
      (accessory.services.filter (fun svc => svc.type == entityTypeUuid u entityType)).filterMap
        fun service => buildEntityFromService u bridge accessory.aid accessoryName entityType service

/-- The duplicate-name pass of `buildEntitiesFromAccessories` (lines 449–465):
every entity whose (pre-pass) display name is shared by at least two entities of
the same batch gets its bridge's display name appended in parentheses. -/
def disambiguateNames (results : List HbEntity) : List HbEntity :=
  results.map fun item =>
    if 2 ≤ (results.filter (fun other => other.name == item.name)).length then
      { item with name := item.name ++ " (" ++ item.bridge.name ++ ")" }
    else item

/-- `buildEntitiesFromAccessories` (lines 431–468): build the entities of one
bridge's accessory graph, then disambiguate duplicate names within that batch. -/
def buildEntitiesFromAccessories (u : HapUuids) (bridge : HapBridgeEndpoint)
    (accessories : List HapAccessory) : List HbEntity :=
  disambiguateNames (rawEntities u bridge accessories)

/-- JS `Map.set` on an association list: replace in place if the key exists,
else append. -/
def mapSet (m : List (String × HbEntity)) (key : String) (e : HbEntity) :
    List (String × HbEntity) :=
  if m.any (fun kv => kv.1 == key) then
    m.map (fun kv => if kv.1 == key then (key, e) else kv)
  else m ++ [(key, e)]

/-- `Map.get` on an association list. -/
def lookupEntity (m : List (String × HbEntity)) (key : String) : Option HbEntity :=
  (m.find? (fun kv => kv.1 == key)).map (fun kv => kv.2)

/-- The entity-map construction of `refresh` (lines 359–382): each bridge's
graph fetch either failed (`none`, logged and skipped) or produced accessories,
whose entities are inserted into the map keyed by entity id; the map replaces
the registry's map wholesale. -/
def refreshEntities (u : HapUuids)
    (fetched : List (HapBridgeEndpoint × Option (List HapAccessory))) :
    List (String × HbEntity) :=
  fetched.foldl
    (fun m item =>
      match item.2 with
      | none => m
      | some accessories =>
        (buildEntitiesFromAccessories u item.1 accessories).foldl
          (fun acc e => mapSet acc e.id e) m)
    []

/-- The typed failures of `setEntity` (lines 387–429): entity not found, bridge
client missing, brightness patch on an unsupported entity, or a propagated
protocol write failure. -/
inductive SetEntityError where
  | entityNotFound (entityId : String)
  | clientUnavailable (username : String)
  | brightnessNotSupported
  | writeFailed (e : WriteFailure)
deriving DecidableEq

/-- `Math.max(0, Math.min(100, Math.round(b)))` at integer precision. -/
def clampBrightness (b : Int) : Int :=
  max 0 (min 100 b)

/-- The write-building part of `setEntity` (lines 398–411): an `on` patch adds a
write to the On characteristic; a `brightness` patch is rejected unless the
entity is a light with a truthy `brightnessIid` (the source tests
`!entity.hap.brightnessIid`, so an iid of 0 also counts as unsupported), and
otherwise adds a clamped write to the Brightness characteristic. -/
def buildWrites (entity : HbEntity) (patch : HbEntityPatch) :
    Except SetEntityError (List HapWrite) :=
  let onWrites : List HapWrite :=
    match patch.onValue with
    | some b => [⟨entity.hap.aid, entity.hap.onIid, .bool b⟩]
    | none => []
  match patch.brightness with
  | none => .ok onWrites
  | some b =>
    match entity.type, entity.hap.brightnessIid with
    | .light, some biid =>
      if biid = 0 then .error .brightnessNotSupported
      else .ok (onWrites ++ [⟨entity.hap.aid, biid, .num (clampBrightness b)⟩])
    | _, _ => .error .brightnessNotSupported

/-- The optimistic local-state patch of `setEntity` (lines 420–425), applied
only after a successful protocol write. -/
def applyPatch (entity : HbEntity) (patch : HbEntityPatch) : HbEntity :=
  let withOn :=
    match patch.onValue with
    | some b => { entity with state := { entity.state with onValue := b } }
    | none => entity
  match patch.brightness with
  | some b =>
    if entity.type = .light then
      { withOn with state := { withOn.state with brightness := some (clampBrightness b) } }
    else withOn
  | none => withOn

/-- `setEntity` (lines 387–429) as a function of the registry map, the set of
usernames with a protocol client, and the protocol write outcome
(`writeOutcome`, the result of `client.setCharacteristics`).  Returns the
call's result together with the registry map after the call. -/
def setEntity (entities : List (String × HbEntity)) (clients : List String)
    (writeOutcome : List HapWrite → Except WriteFailure Unit)
    (entityId : String) (patch : HbEntityPatch) :
    Except SetEntityError HbEntity × List (String × HbEntity) :=
  match lookupEntity entities entityId with
  | none => (.error (.entityNotFound entityId), entities)
  | some entity =>
    if entity.bridge.username ∈ clients then
      match buildWrites entity patch with
      | .error err => (.error err, entities)
      | .ok writes =>
        if writes.isEmpty then (.ok entity, entities)
        else
          match writeOutcome writes with
          | .error e => (.error (.writeFailed e), entities)
          | .ok _ =>
            let updated := applyPatch entity patch
            (.ok updated, mapSet entities entityId updated)
    else (.error (.clientUnavailable entity.bridge.username), entities)

/-! ## Endpoint discovery (`homebridge-config.ts`, lines 46–190) -/

/-- `HomebridgeBridgeConfig`: the main bridge descriptor of `config.json`. -/
structure HomebridgeBridgeConfig where
  name : Option String
  username : Option String
  pin : Option String
  port : Option Int
deriving DecidableEq

/-- `HomebridgeChildBridgeConfig`: a `_bridge` annotation on a platform or
accessory block.  All fields pass through the runtime guards `asString` /
`asNumber`, so they are modelled as optional. -/
structure HomebridgeChildBridgeConfig where
  username : Option String
  port : Option Int
  pin : Option String
  name : Option String
deriving DecidableEq

/-- The parts of `config.json` discovery reads: the main bridge and the
`_bridge` annotations of the `platforms` and `accessories` arrays (an entry
without an annotation is `none`). -/
structure HomebridgeConfigJson where
  bridge : Option HomebridgeBridgeConfig
  platforms : List (Option HomebridgeChildBridgeConfig)
  accessories : List (Option HomebridgeChildBridgeConfig)
deriving DecidableEq

/-- The content of a persisted `AccessoryInfo.*.json` credential file.  The
files carry more fields; `loadAccessoryInfoPin` reads only `pincode`, while the
stored `port` is modelled because the specification's discovery description
refers to it. -/
structure PersistFile where
  username : Option String
  pincode : Option String
  port : Option Int
deriving DecidableEq

/-- The persist directory: file name → parse result (`none` for an unreadable
or malformed file). -/
def PersistDir : Type := List (String × Option PersistFile)

/-- `asString`: a trimmed non-empty string, else `undefined`. -/
def asString (value : Option String) : Option String :=
  match value with
  | some s => if (jsTrim s).isEmpty then none else some (jsTrim s)
  | none => none

/-- `asNumber`: a finite number; at integer precision every number is finite. -/
def asNumber (value : Option Int) : Option Int :=
  value

/-- `normalizeAccessoryInfoId` (line 65): strip colons and uppercase. -/
def normalizeAccessoryInfoId (username : String) : String :=
  jsToUpper (stripColons username)

/-- `tryLoadFile` (lines 71–88): read and parse a persist file and return its
trimmed non-empty `pincode`, else `undefined`. -/
def tryLoadFile (persistFiles : PersistDir) (filePath : String) : Option String :=
  match persistFiles.find? (fun kv => kv.1 == filePath) with
  | none => none
  | some (_, none) => none
  | some (_, some parsed) => asString parsed.pincode

/-- JS `String.prototype.includes` over ASCII, as contiguous-subsequence
containment of character lists. -/
def charsContain (needle : List Char) : List Char → Bool
  | [] => needle.isEmpty
  | c :: rest => List.isPrefixOf needle (c :: rest) || charsContain needle rest

/-- `loadAccessoryInfoPin` (lines 67–118): first the exact
`AccessoryInfo.<normalized>.json` path, then a scan over every
`AccessoryInfo.*.json` file whose upper-cased name contains the normalized
identity, returning the first pin found. -/
def loadAccessoryInfoPin (persistFiles : PersistDir) (username : String) : Option String :=
  let normalized := normalizeAccessoryInfoId username
  match tryLoadFile persistFiles ("AccessoryInfo." ++ normalized ++ ".json") with
  | some pin => some pin
  | none =>
    let candidates := (persistFiles.map (fun kv => kv.1)).filter
      (fun f => jsStartsWith f "AccessoryInfo." && jsEndsWith f ".json")
    (candidates.filterMap fun f =>
      if charsContain normalized.data (jsToUpper f).data then tryLoadFile persistFiles f
      else none).head?

/-- `addChildBridge` (lines 153–180) as a step over the `(seen, endpoints)`
accumulator: requires an explicit `username` and an explicit `port`; the pin is
the explicit config pin, else the persisted-store pin, else the main bridge's
pin; a duplicate (first-seen) username is suppressed. -/
def addChildBridge (persistFiles : PersistDir) (mainPin : Option String)
    (st : List String × List HapBridgeEndpoint)
    (bridge : Option HomebridgeChildBridgeConfig) :
    List String × List HapBridgeEndpoint :=
  let username := asString (bridge.bind (fun b => b.username))
  let port := asNumber (bridge.bind (fun b => b.port))
  let name := ((asString (bridge.bind (fun b => b.name))).orElse (fun _ => username)).getD "Child Bridge"
  match username, port with
  | some u, some p =>
    match ((asString (bridge.bind (fun b => b.pin))).orElse
        (fun _ => loadAccessoryInfoPin persistFiles u)).orElse (fun _ => mainPin) with
    | none => st
    | some pin =>
      let upper := jsToUpper u
      if upper ∈ st.1 then st
      else (st.1 ++ [upper], st.2 ++ [⟨upper, p, pin, name, .child⟩])
  | _, _ => st

/-- `discoverHapBridgeEndpoints` (lines 120–190): the main bridge is included
when it has a username and a pin (explicit, else from the persist store), with
port defaulting to 51826 and name to "Homebridge"; then every `_bridge`
annotation of `platforms` and `accessories` is added through `addChildBridge`. -/
def discoverHapBridgeEndpoints (persistFiles : PersistDir)
    (config : HomebridgeConfigJson) : List HapBridgeEndpoint :=
  let mainBridge := config.bridge
  let mainUsername := asString (mainBridge.bind (fun b => b.username))
  let mainPort := (asNumber (mainBridge.bind (fun b => b.port))).getD 51826
  let mainName := (asString (mainBridge.bind (fun b => b.name))).getD "Homebridge"
  let mainPin :=
    match mainUsername with
    | some u => (asString (mainBridge.bind (fun b => b.pin))).orElse
        (fun _ => loadAccessoryInfoPin persistFiles u)
    | none => none
  let endpoints0 : List HapBridgeEndpoint :=
    match mainUsername, mainPin with
    | some u, some p => [⟨jsToUpper u, mainPort, p, mainName, .main⟩]
    | _, _ => []
  let seen0 := endpoints0.map (fun e => e.username)
  let final := (config.platforms ++ config.accessories).foldl
    (addChildBridge persistFiles mainPin) (seen0, endpoints0)
  final.2

/-! ## Claim-side model of discovery resolution (claim C9)

The following `claim…` definitions follow the words of the specification's
discovery description, not the source, and exist only to be compared with the
code: "resolve `port` and `pin` preferring explicit configuration, falling back
to the persisted-credential store (first an identity-exact lookup, then a
scan-and-match fallback over all stored credential records, matching on a
normalized form of the identity)". -/

/-- Claim-side store lookup: the identity-exact file first, then a scan over
all stored credential files whose name matches the normalized identity. -/
def claimStoreRecord (persistFiles : PersistDir) (username : String) :
    Option PersistFile :=
  let normalized := normalizeAccessoryInfoId username
  match persistFiles.find?
      (fun kv => kv.1 == "AccessoryInfo." ++ normalized ++ ".json") with
  | some (_, some parsed) => some parsed
  | _ =>
    ((persistFiles.filter
        (fun kv => jsStartsWith kv.1 "AccessoryInfo." && jsEndsWith kv.1 ".json" &&
          charsContain normalized.data (jsToUpper kv.1).data)).filterMap
      (fun kv => kv.2)).head?

/-- Claim-side port resolution for a child bridge: explicit configuration
first, else the stored credential record's port. -/
def claimResolvedPort (persistFiles : PersistDir)
    (cb : HomebridgeChildBridgeConfig) : Option Int :=
  (asNumber cb.port).orElse fun _ =>
    match asString cb.username with
    | some u => (claimStoreRecord persistFiles u).bind (fun r => asNumber r.port)
    | none => none

/-- Claim-side pin resolution for a child bridge: explicit configuration
first, else the persisted-credential store. -/
def claimResolvedPin (persistFiles : PersistDir)
    (cb : HomebridgeChildBridgeConfig) : Option String :=
  (asString cb.pin).orElse fun _ =>
    match asString cb.username with
    | some u => loadAccessoryInfoPin persistFiles u
    | none => none

/-- The claim's discovery property as a decidable check: every child bridge
that declares an identity is included in the discovered endpoint list with the
claim-resolved port and pin when both resolve, and is excluded when either
fails to resolve. -/
def claimC9Holds (persistFiles : PersistDir) (config : HomebridgeConfigJson) : Bool :=
  (config.platforms ++ config.accessories).all fun ocb =>
    match ocb with
    | none => true
    | some cb =>
      match asString cb.username with
      | none => true
      | some u =>
        match claimResolvedPort persistFiles cb, claimResolvedPin persistFiles cb with
        | some p, some pin =>
          (discoverHapBridgeEndpoints persistFiles config).any fun e =>
            e.username == jsToUpper u && e.port == p && e.pin == pin
        | _, _ =>
          (discoverHapBridgeEndpoints persistFiles config).all fun e =>
            e.username != jsToUpper u

/-- A host configuration with a fully configured main bridge and two child
bridges: one whose port exists only in the credential store, one with an
explicit port but no pin of its own anywhere. -/
def config9 : HomebridgeConfigJson :=
  { bridge := some ⟨some "Homebridge", some "0E:B7:C8:D0:E5:F2", some "031-45-154", some 51826⟩
  , platforms :=
      [some ⟨some "AA:BB:CC:DD:EE:01", none, some "111-11-111", some "One"⟩,
       some ⟨some "AA:BB:CC:DD:EE:02", some 51828, none, some "Two"⟩]
  , accessories := [] }

/-- The persist directory matching `config9`: a credential record (pin and
port) for the first child bridge only. -/
def store9 : PersistDir :=
  [("AccessoryInfo.AABBCCDDEE01.json",
    some ⟨some "AA:BB:CC:DD:EE:01", some "111-11-111", some 51827⟩)]

/-! ## Guardrail engine (`platform.ts`, `executeHealingActions`, lines 313–367) -/

/-- A configured self-healing command (`selfHealing.commands[i]`):
`{id, label, command, cooldownMinutes}`. -/
structure HealCommand where
  id : String
  label : String
  command : String
  cooldownMinutes : Int
deriving DecidableEq

/-- One proposal: `{commandId, reason}`. -/
structure HealAction where
  commandId : String
  reason : String
deriving DecidableEq

/-- `state.actionQuota`: the rolling daily counter. -/
structure ActionQuota where
  date : String
  count : Nat
deriving DecidableEq

/-- The guardrail's durable state: `commandCooldowns` (cooldown key → ISO
last-run timestamp) and `actionQuota`. -/
structure GuardState where
  commandCooldowns : List (String × String)
  actionQuota : ActionQuota
deriving DecidableEq

/-- The outcome of `execAsync` on a shell command: stdout/stderr on success, or
a thrown error (non-zero exit, timeout, buffer overflow) with its message. -/
inductive ShellResult where
  | ok (stdout stderr : String)
  | err (message : String)
deriving DecidableEq

/-- The result lines of `executeHealingActions`, kept structurally (the source
formats them as human-readable strings; the 200-character output truncation is
presentation only and not modelled). -/
inductive HealOutcome where
  | quotaReached
  | skippedUnknown (commandId : String)
  | skippedCooldown (label : String)
  | executed (label : String) (reason : String) (output : String)
  | failed (label : String) (message : String)
deriving DecidableEq

/-- Plain-object property set (`Record<string, string>`): replace in place if
the key exists, else append. -/
def mapSetStr (m : List (String × String)) (key value : String) :
    List (String × String) :=
  if m.any (fun kv => kv.1 == key) then
    m.map (fun kv => if kv.1 == key then (key, value) else kv)
  else m ++ [(key, value)]

/-- Plain-object property lookup. -/
def lookupStr (m : List (String × String)) (key : String) : Option String :=
  (m.find? (fun kv => kv.1 == key)).map (fun kv => kv.2)

/-- `new Map(commands.map(item => [item.id, item]))` lookup: a later entry with
the same id overwrites an earlier one. -/
def commandMapGet (commands : List HealCommand) (id : String) : Option HealCommand :=
  commands.foldl (fun acc c => if c.id == id then some c else acc) none

/-- The cooldown test of lines 341–350: no recorded timestamp (or an empty,
falsy one) means no cooldown; an unparsable timestamp yields `NaN`, whose
comparison is false, so it also means no cooldown; otherwise the command is in
cooldown iff strictly less than `cooldownMinutes` have elapsed.  The source
compares `(now - t) / 60000 < cooldownMinutes` in real arithmetic, which is
equivalent to the integer comparison `now - t < cooldownMinutes * 60000`. -/
def cooldownActive (parseDate : String → Option Int) (now : Int)
    (cooldowns : List (String × String)) (key : String) (cooldownMinutes : Int) : Bool :=
  match lookupStr cooldowns key with
  | none => false
  | some lastRanAt =>
    if lastRanAt = "" then false
    else
      match parseDate lastRanAt with
      | none => false
      | some t => decide (now - t < cooldownMinutes * 60000)

/-- The state update of lines 358–359 after a successful execution: record the
last-run timestamp under the cooldown key and increment the daily count. -/
def recordRun (isoOfTime : Int → String) (now : Int) (key : String)
    (st : GuardState) : GuardState :=
  { commandCooldowns := mapSetStr st.commandCooldowns key (isoOfTime now)
  , actionQuota := { st.actionQuota with count := st.actionQuota.count + 1 } }

/-- One iteration of the loop of lines 328–364: either stop processing entirely
(daily quota reached) or continue with an outcome, the possibly-updated state,
and whether `persistState` was called for this proposal. -/
inductive HealStep where
  | stop (outcome : HealOutcome)
  | cont (outcome : HealOutcome) (st : GuardState) (persist : Bool)
deriving DecidableEq

/-- The body of the proposal loop for one proposal. -/
def healStep (commands : List HealCommand) (maxActionsPerDay : Nat)
    (parseDate : String → Option Int) (isoOfTime : Int → String)
    (runShell : String → ShellResult) (now : Int)
    (st : GuardState) (action : HealAction) : HealStep :=
  if maxActionsPerDay ≤ st.actionQuota.count then .stop .quotaReached
  else
    match commandMapGet commands action.commandId with
    | none => .cont (.skippedUnknown action.commandId) st false
    | some command =>
      let key := "cmd:" ++ command.id
      if cooldownActive parseDate now st.commandCooldowns key command.cooldownMinutes then
        .cont (.skippedCooldown command.label) st false
      else
        match runShell command.command with
        | .ok stdout stderr =>
          .cont (.executed command.label action.reason (jsTrim (stdout ++ " " ++ stderr)))
            (recordRun isoOfTime now key st) true
        | .err message => .cont (.failed command.label message) st false

/-- The proposal loop (lines 328–364), threading the guard state and counting
`persistState` calls.  The whole synchronous pass is modelled at one clock
instant `now`. -/
def healLoop (commands : List HealCommand) (maxActionsPerDay : Nat)
    (parseDate : String → Option Int) (isoOfTime : Int → String)
    (runShell : String → ShellResult) (now : Int) :
    GuardState → List HealAction → List HealOutcome × GuardState × Nat
  | st, [] => ([], st, 0)
  | st, action :: rest =>
    match healStep commands maxActionsPerDay parseDate isoOfTime runShell now st action with
    | .stop outcome => ([outcome], st, 0)
    | .cont outcome st' persist =>
      let tail := healLoop commands maxActionsPerDay parseDate isoOfTime runShell now st' rest
      (outcome :: tail.1, tail.2.1, tail.2.2 + (if persist then 1 else 0))

/-- `executeHealingActions` (lines 313–367): disabled self-healing or an empty
proposal list returns immediately with no state change; otherwise the daily
counter is reset when its stored date differs from today, and the proposal loop
runs. -/
def executeHealingActions (enabled : Bool) (commands : List HealCommand)
    (maxActionsPerDay : Nat) (parseDate : String → Option Int)
    (isoOfTime : Int → String) (runShell : String → ShellResult) (now : Int)
    (today : String) (st : GuardState) (actions : List HealAction) :
    List HealOutcome × GuardState × Nat :=
  if !enabled || actions.isEmpty then ([], st, 0)
  else
    let st0 :=
      if st.actionQuota.date ≠ today then
        { st with actionQuota := { date := today, count := 0 } }
      else st
    healLoop commands maxActionsPerDay parseDate isoOfTime runShell now st0 actions

/-! ## Concrete fixtures (used by witnesses and counterexamples) -/

/-- A UUID table with distinct placeholder identifiers standing for the host
HAP UUID constants. -/
def sampleUuids : HapUuids :=
  ⟨"uuid-switch", "uuid-light", "uuid-outlet", "uuid-name", "uuid-on",
   "uuid-brightness", "uuid-info"⟩

/-- An accessory exposing one writable switch service, named "Lamp" by its
AccessoryInformation service. -/
def lampAccessory : HapAccessory :=
  ⟨1, [⟨1, "uuid-info", [⟨2, "uuid-name", none, some (.str "Lamp")⟩]⟩,
       ⟨8, "uuid-switch", [⟨9, "uuid-on", some ["pw"], some (.bool false)⟩]⟩]⟩

/-- A main-bridge endpoint named "Main". -/
def mainEndpoint : HapBridgeEndpoint := ⟨"AA:11", 51826, "p1", "Main", .main⟩

/-- A child-bridge endpoint named "Office". -/
def officeEndpoint : HapBridgeEndpoint := ⟨"BB:22", 51827, "p2", "Office", .child⟩

/-- The switch entity the registry builds from `lampAccessory` on
`mainEndpoint`. -/
def sampleSwitchEntity : HbEntity :=
  ⟨"AA:11:1:8", "Lamp", .switch, ⟨"AA:11", "Main", 51826⟩, ⟨1, 8, 9, none⟩,
   ⟨false, none⟩⟩

/-- A light entity with a brightness characteristic, for write-path witnesses. -/
def sampleLightEntity : HbEntity :=
  ⟨"AA:11:2:3", "Desk", .light, ⟨"AA:11", "Main", 51826⟩, ⟨2, 3, 4, some 5⟩,
   ⟨false, some 10⟩⟩

/-! ## Shared helper lemmas -/

/-- An entry is a non-failure exactly when any numeric status it carries is the
zero/success code. -/
theorem entryFailed_eq_false_iff (e : WriteResultEntry) :
    entryFailed e = false ↔ ∀ s : Int, e.status = some s → s = 0 := by
  cases h : e.status with
  | none => simp [entryFailed, h]
  | some s => simp [entryFailed, h]

/-- Dropping a present element that fails the filter predicate strictly
shrinks the list. -/
theorem length_filter_lt_of_mem_not {α : Type} (p : α → Bool) (l : List α) (a : α)
    (ha : a ∈ l) (hp : p a = false) : (l.filter p).length < l.length := by
  induction l with
  | nil => cases ha
  | cons b l ih =>
    rcases List.mem_cons.mp ha with hab | hmem
    · subst hab
      rw [List.filter_cons_of_neg (by simp [hp])]
      exact Nat.lt_succ_of_le (l.length_filter_le p)
    · cases hb : p b with
      | true =>
        rw [List.filter_cons_of_pos hb]
        exact Nat.succ_lt_succ (ih hmem)
      | false =>
        rw [List.filter_cons_of_neg (by simp [hb])]
        exact Nat.lt_succ_of_lt (ih hmem)

/-- Every event produced by the arming loop concerns a job of the list the loop
was given. -/
theorem armJobs_events_mem (parseDate : String → Option Int) (now2 now3 : Int) :
    ∀ (timers : List String) (l : List OneShotJob),
      ∀ ev ∈ (armJobs parseDate now2 now3 timers l).2, ev.job ∈ l := by
  intro timers l
  induction l generalizing timers with
  | nil => intro ev hev; simp [armJobs] at hev
  | cons j rest ih =>
    intro ev hev
    simp only [armJobs] at hev
    split at hev
    · exact List.mem_cons_of_mem _ (ih _ ev hev)
    · split at hev
      · exact List.mem_cons_of_mem _ (ih _ ev hev)
      · split at hev
        · exact List.mem_cons_of_mem _ (ih _ ev hev)
        · split at hev
          · rcases List.mem_cons.mp hev with h | h
            · subst h; exact List.mem_cons_self _ _
            · exact List.mem_cons_of_mem _ (ih _ ev h)
          · rcases List.mem_cons.mp hev with h | h
            · subst h; exact List.mem_cons_self _ _
            · exact List.mem_cons_of_mem _ (ih _ ev h)

/-- Field facts about an entity built from a service: its kind is the requested
kind, its bridge reference is the bridge it was built for, and a non-light
entity carries no brightness characteristic and no brightness state. -/
theorem buildEntityFromService_some (u : HapUuids) (bridge : HapBridgeEndpoint)
    (aid : Nat) (accessoryName : String) (ty : HbEntityType) (svc : HapService)
    (e : HbEntity) (h : buildEntityFromService u bridge aid accessoryName ty svc = some e) :
    e.type = ty ∧ e.bridge = ⟨bridge.username, bridge.name, bridge.port⟩ ∧
    (ty ≠ .light → e.hap.brightnessIid = none ∧ e.state.brightness = none) := by
  simp only [buildEntityFromService] at h
  split at h
  · cases h
  · split at h
    · cases h
    · split at h
      · rw [Option.some_inj] at h
        subst h
        refine ⟨rfl, rfl, ?_⟩
        intro hty
        simp [if_neg hty]
      · cases h

/-- Every entity of the raw (pre-disambiguation) batch comes from
`buildEntityFromService`. -/
theorem mem_rawEntities (u : HapUuids) (bridge : HapBridgeEndpoint)
    (accessories : List HapAccessory) (e : HbEntity)
    (he : e ∈ rawEntities u bridge accessories) :
    ∃ ty aid accessoryName svc,
      buildEntityFromService u bridge aid accessoryName ty svc = some e := by
  simp only [rawEntities, List.mem_flatMap, List.mem_filterMap, List.mem_filter] at he
  obtain ⟨acc, _, ty, _, svc, _, hbuild⟩ := he
  exact ⟨ty, acc.aid, _, svc, hbuild⟩

/-- Name disambiguation changes only the `name` field: every output entity has
a source entity of the batch with the same type, bridge, address and state. -/
theorem mem_disambiguateNames (l : List HbEntity) (e' : HbEntity)
    (h : e' ∈ disambiguateNames l) :
    ∃ e ∈ l, e'.type = e.type ∧ e'.bridge = e.bridge ∧ e'.hap = e.hap ∧
      e'.state = e.state := by
  rcases List.mem_map.mp h with ⟨e, he, heq⟩
  by_cases hc : 2 ≤ (l.filter (fun other => other.name == e.name)).length
  · rw [if_pos hc] at heq
    exact ⟨e, he, by rw [← heq], by rw [← heq], by rw [← heq], by rw [← heq]⟩
  · rw [if_neg hc] at heq
    exact ⟨e, he, by rw [← heq], by rw [← heq], by rw [← heq], by rw [← heq]⟩

/-- A binding of the map after a `Map.set` either carries the inserted entity
or was already present. -/
theorem mem_mapSet (m : List (String × HbEntity)) (key : String) (e : HbEntity)
    (kv : String × HbEntity) (h : kv ∈ mapSet m key e) : kv.2 = e ∨ kv ∈ m := by
  unfold mapSet at h
  split at h
  · rcases List.mem_map.mp h with ⟨kv', hkv', heq⟩
    by_cases hk : kv'.1 == key
    · left; rw [if_pos hk] at heq; rw [← heq]
    · right; rw [if_neg hk] at heq; rwa [← heq]
  · rcases List.mem_append.mp h with h | h
    · right; exact h
    · left
      have : kv = (key, e) := by simpa using h
      rw [this]

/-- Inserting a batch of entities into the map preserves any per-entity
property that holds of the map and of the batch. -/
theorem foldl_insert_prop (P : HbEntity → Prop) :
    ∀ (l : List HbEntity) (m : List (String × HbEntity)),
      (∀ kv ∈ m, P kv.2) → (∀ x ∈ l, P x) →
      ∀ kv ∈ l.foldl (fun acc e => mapSet acc e.id e) m, P kv.2 := by
  intro l
  induction l with
  | nil => intro m hm _ kv hkv; exact hm kv hkv
  | cons x l ih =>
    intro m hm hl kv hkv
    refine ih (mapSet m x.id x) ?_ (fun y hy => hl y (List.mem_cons_of_mem _ hy)) kv hkv
    intro kv' hkv'
    rcases mem_mapSet m x.id x kv' hkv' with h | h
    · rw [h]; exact hl x (List.mem_cons_self _ _)
    · exact hm kv' h

/-- The refreshed entity map satisfies any per-entity property that holds of
every entity built for any successfully fetched bridge. -/
theorem refreshEntities_prop (P : HbEntity → Prop) (u : HapUuids) :
    ∀ (fetched : List (HapBridgeEndpoint × Option (List HapAccessory)))
      (m : List (String × HbEntity)),
      (∀ kv ∈ m, P kv.2) →
      (∀ bridge accs, (bridge, some accs) ∈ fetched →
        ∀ e ∈ buildEntitiesFromAccessories u bridge accs, P e) →
      ∀ kv ∈ fetched.foldl
          (fun m item =>
            match item.2 with
            | none => m
            | some accessories =>
              (buildEntitiesFromAccessories u item.1 accessories).foldl
                (fun acc e => mapSet acc e.id e) m)
          m,
        P kv.2 := by
  intro fetched
  induction fetched with
  | nil => intro m hm _ kv hkv; exact hm kv hkv
  | cons item rest ih =>
    intro m hm hall kv hkv
    simp only [List.foldl_cons] at hkv
    rcases hitem : item.2 with _ | accs
    · rw [hitem] at hkv
      exact ih m hm
        (fun bridge accs hmem => hall bridge accs (List.mem_cons_of_mem _ hmem)) kv hkv
    · rw [hitem] at hkv
      refine ih _ ?_
        (fun bridge accs hmem => hall bridge accs (List.mem_cons_of_mem _ hmem)) kv hkv
      intro kv' hkv'
      refine foldl_insert_prop P _ m hm ?_ kv' hkv'
      intro x hx
      have : (item.1, some accs) ∈ item :: rest := by
        rw [← hitem]
        exact List.mem_cons_self _ _
      exact hall item.1 accs this x hx

/-- Entities of a single bridge's built batch that are not lights carry no
brightness characteristic and no brightness state. -/
theorem buildEntities_no_brightness (u : HapUuids) (bridge : HapBridgeEndpoint)
    (accs : List HapAccessory) :
    ∀ e ∈ buildEntitiesFromAccessories u bridge accs,
      e.type ≠ .light → e.hap.brightnessIid = none ∧ e.state.brightness = none := by
  intro e he hty
  obtain ⟨e0, he0, htype, _, hhap, hstate⟩ :=
    mem_disambiguateNames (rawEntities u bridge accs) e he
  obtain ⟨ty, aid, accessoryName, svc, hbuild⟩ :=
    mem_rawEntities u bridge accs e0 he0
  obtain ⟨hety, _, hbr⟩ :=
    buildEntityFromService_some u bridge aid accessoryName ty svc e0 hbuild
  have : ty ≠ .light := by
    rw [← hety, ← htype]
    exact hty
  obtain ⟨h1, h2⟩ := hbr this
  exact ⟨by rw [hhap, h1], by rw [hstate, h2]⟩

/-- Every entity of the raw batch references its own bridge. -/
theorem rawEntities_bridge (u : HapUuids) (bridge : HapBridgeEndpoint)
    (accs : List HapAccessory) :
    ∀ e ∈ rawEntities u bridge accs,
      e.bridge = ⟨bridge.username, bridge.name, bridge.port⟩ := by
  intro e he
  obtain ⟨ty, aid, accessoryName, svc, hbuild⟩ := mem_rawEntities u bridge accs e he
  exact (buildEntityFromService_some u bridge aid accessoryName ty svc e hbuild).2.1

/-! ## Claim theorems -/

/-- Claim C1 (counterexample): the claim states that a 207 response succeeds if
and only if every entry of the `characteristics` array has the zero/success
status.  The source treats an entry with a missing (non-numeric) status as a
non-failure, so a 207 body whose single entry has no status succeeds although
that entry does not have the zero status. -/
theorem C1_counterexample :
    setCharacteristics (.multiStatus (some [⟨none, none, none⟩])) = .ok () ∧
    ¬ (∀ e ∈ [(⟨none, none, none⟩ : WriteResultEntry)], e.status = some 0) :=
  ⟨rfl, by decide⟩

/-- Claim C1 (amended): a 204 response succeeds; a 207 response succeeds iff
every entry of its `characteristics` array that carries a numeric status
carries the zero/success status (entries without a numeric status are ignored),
and otherwise fails carrying exactly the entries with a numeric non-zero
status; any other status fails carrying the status and body. -/
theorem C1_setCharacteristics_semantics (chars : Option (List WriteResultEntry))
    (status : Nat) (body : String) :
    setCharacteristics .noContent = .ok () ∧
    (setCharacteristics (.multiStatus chars) = .ok () ↔
      ∀ e ∈ chars.getD [], ∀ s : Int, e.status = some s → s = 0) ∧
    ((¬ ∀ e ∈ chars.getD [], ∀ s : Int, e.status = some s → s = 0) →
      setCharacteristics (.multiStatus chars) =
        .error (.characteristicErrors ((chars.getD []).filter entryFailed))) ∧
    setCharacteristics (.other status body) = .error (.httpError status body) := by
  have hiff : ((chars.getD []).filter entryFailed).isEmpty = true ↔
      ∀ e ∈ chars.getD [], ∀ s : Int, e.status = some s → s = 0 := by
    rw [List.isEmpty_iff, List.filter_eq_nil_iff]
    constructor
    · intro h e he
      exact (entryFailed_eq_false_iff e).mp (by simpa using h e he)
    · intro h e he
      simp [(entryFailed_eq_false_iff e).mpr (h e he)]
  refine ⟨rfl, ?_, ?_, rfl⟩
  · simp only [setCharacteristics]
    constructor
    · intro h
      rw [← hiff]
      by_contra hne
      simp [hne] at h
    · intro h
      simp [hiff.mpr h]
  · intro h
    have hfalse : ((chars.getD []).filter entryFailed).isEmpty = false := by
      cases he : ((chars.getD []).filter entryFailed).isEmpty
      · rfl
      · exact absurd (hiff.mp he) h
    simp [setCharacteristics, hfalse]

/-- Claim C1 (witness for the amended theorem): a 207 body with one failing
entry fails carrying exactly that entry. -/
theorem C1_witness :
    setCharacteristics (.multiStatus (some [⟨some 1, some 2, some (-70402)⟩])) =
      .error (.characteristicErrors [⟨some 1, some 2, some (-70402)⟩]) :=
  (C1_setCharacteristics_semantics (some [⟨some 1, some 2, some (-70402)⟩]) 0 "").2.2.1
    (by decide)

/-- Claim C2: for one firing of a scheduled one-shot action, the executor is
invoked exactly once (so at most once), the job is removed from the persisted
list regardless of the executor's outcome (the persisted list does not depend
on the outcome at all), and an executor error is logged as a warning. -/
theorem C2_runJob_at_most_once (job : OneShotJob) (res : Except String Unit)
    (jobs : List OneShotJob) :
    (runJob job res jobs).executions = [job] ∧
    (∀ j ∈ (runJob job res jobs).persisted, j.id ≠ job.id) ∧
    (runJob job res jobs).persisted = (runJob job (.ok ()) jobs).persisted ∧
    (∀ msg, res = .error msg →
      (runJob job res jobs).warned =
        some ("[LLMControl] Job " ++ job.id ++ " failed: " ++ msg)) := by
  refine ⟨rfl, ?_, rfl, ?_⟩
  · intro j hj
    have := (List.mem_filter.mp hj).2
    simpa using this
  · intro msg h
    subst h
    rfl

/-- Claim C2 (witness): a failing executor is logged and its job is still
pruned from the persisted list. -/
theorem C2_witness :
    (runJob ⟨"a", "c", "r", .restartHomebridge "x"⟩ (.error "boom")
      [⟨"a", "c", "r", .restartHomebridge "x"⟩, ⟨"b", "c", "r", .restartHomebridge "y"⟩]).warned =
      some "[LLMControl] Job a failed: boom" :=
  (C2_runJob_at_most_once ⟨"a", "c", "r", .restartHomebridge "x"⟩ (.error "boom")
    [⟨"a", "c", "r", .restartHomebridge "x"⟩, ⟨"b", "c", "r", .restartHomebridge "y"⟩]).2.2.2
    "boom" rfl

/-- Claim C3: a job whose `runAt` cannot be parsed or lies in the past when
`sync` prunes (the hypothesis covers both: any parsed time is strictly before
`now1`) is dropped from the surviving list, the pruned list is persisted, and
no arming or execution event ever concerns that job. -/
theorem C3_sync_prunes_past_jobs (parseDate : String → Option Int)
    (now1 now2 now3 : Int) (timers0 : List String) (jobs : List OneShotJob)
    (job : OneShotJob) (hmem : job ∈ jobs)
    (hpast : ∀ t, parseDate job.runAt = some t → t < now1) :
    job ∉ (sync parseDate now1 now2 now3 timers0 jobs).nextJobs ∧
    (sync parseDate now1 now2 now3 timers0 jobs).persisted =
      some (pruneJobs parseDate now1 jobs) ∧
    ∀ ev ∈ (sync parseDate now1 now2 now3 timers0 jobs).events, ev.job ≠ job := by
  have hpred : (match parseDate job.runAt with
      | some runAt => decide (now1 < runAt)
      | none => false) = false := by
    cases h : parseDate job.runAt with
    | none => rfl
    | some t =>
      simp only [decide_eq_false_iff_not, not_lt]
      exact le_of_lt (hpast t h)
  have hnotmem : job ∉ pruneJobs parseDate now1 jobs := by
    intro hin
    have := (List.mem_filter.mp hin).2
    rw [hpred] at this
    cases this
  refine ⟨?_, ?_, ?_⟩
  · simpa [sync] using hnotmem
  · have hlen : (pruneJobs parseDate now1 jobs).length ≠ jobs.length :=
      Nat.ne_of_lt (length_filter_lt_of_mem_not _ jobs job hmem hpred)
    simp [sync, hlen]
  · intro ev hev
    have hev' : ev.job ∈ pruneJobs parseDate now1 jobs := by
      have := armJobs_events_mem parseDate now2 now3
        ((timers0.filter (fun id => id ∈ (pruneJobs parseDate now1 jobs).map (fun j => j.id))))
        (pruneJobs parseDate now1 jobs) ev (by simpa [sync] using hev)
      exact this
    intro heq
    rw [heq] at hev'
    exact hnotmem hev'

/-- Claim C3 (witness): a job with an unparsable `runAt` is dropped, the pruned
(empty) list is persisted, and the job is never armed or executed. -/
theorem C3_witness :
    (⟨"a", "c", "bogus", .restartHomebridge "x"⟩ : OneShotJob) ∉
      (sync (fun _ => none) 0 0 0 [] [⟨"a", "c", "bogus", .restartHomebridge "x"⟩]).nextJobs ∧
    (sync (fun _ => none) 0 0 0 [] [⟨"a", "c", "bogus", .restartHomebridge "x"⟩]).persisted =
      some [] ∧
    ∀ ev ∈ (sync (fun _ => none) 0 0 0 []
        [⟨"a", "c", "bogus", .restartHomebridge "x"⟩]).events,
      ev.job ≠ ⟨"a", "c", "bogus", .restartHomebridge "x"⟩ :=
  C3_sync_prunes_past_jobs (fun _ => none) 0 0 0 []
    [⟨"a", "c", "bogus", .restartHomebridge "x"⟩]
    ⟨"a", "c", "bogus", .restartHomebridge "x"⟩
    (by simp) (fun t ht => by cases ht)

/-- Claim C4: every entity of a refreshed registry whose kind is switch or
outlet carries no brightness value in its observed state and no brightness
characteristic id in its protocol address; and a `setEntity` call whose patch
contains a brightness value fails with the unsupported-capability error when
the target entity (with an available bridge client) is not a light or lacks a
brightness characteristic id. -/
theorem C4_switch_outlet_never_brightness (u : HapUuids)
    (fetched : List (HapBridgeEndpoint × Option (List HapAccessory)))
    (entities : List (String × HbEntity)) (clients : List String)
    (writeOutcome : List HapWrite → Except WriteFailure Unit)
    (entityId : String) (patch : HbEntityPatch) (e : HbEntity) (b : Int) :
    (∀ kv ∈ refreshEntities u fetched,
      kv.2.type = .switch ∨ kv.2.type = .outlet →
        kv.2.hap.brightnessIid = none ∧ kv.2.state.brightness = none) ∧
    (lookupEntity entities entityId = some e →
      e.bridge.username ∈ clients →
      patch.brightness = some b →
      (e.type ≠ .light ∨ e.hap.brightnessIid = none) →
      setEntity entities clients writeOutcome entityId patch =
        (.error .brightnessNotSupported, entities)) := by
  constructor
  · intro kv hkv hso
    have hty : kv.2.type ≠ .light := by
      rcases hso with h | h <;> rw [h] <;> intro hc <;> cases hc
    refine refreshEntities_prop
      (fun x => x.type ≠ .light → x.hap.brightnessIid = none ∧ x.state.brightness = none)
      u fetched [] (by intro kv h; cases h) ?_ kv hkv hty
    intro bridge accs _ x hx
    exact buildEntities_no_brightness u bridge accs x hx
  · intro hfound hclient hbr hbad
    have hwrites : buildWrites e patch = .error .brightnessNotSupported := by
      unfold buildWrites
      rw [hbr]
      rcases hbad with h | h
      · rcases hty : e.type with _ | _ | _
        · rfl
        · exact absurd hty h
        · rfl
      · rw [h]
        rcases hty : e.type with _ | _ | _ <;> rfl
    simp [setEntity, hfound, hwrites, hclient]

/-- Claim C4 (witness): a brightness patch against a concrete switch entity is
rejected with the unsupported-capability error and leaves the registry map
unchanged. -/
theorem C4_witness :
    setEntity [("AA:11:1:8", sampleSwitchEntity)] ["AA:11"] (fun _ => .ok ())
      "AA:11:1:8" ⟨none, some 50⟩ =
      (.error .brightnessNotSupported, [("AA:11:1:8", sampleSwitchEntity)]) :=
  (C4_switch_outlet_never_brightness sampleUuids [] [("AA:11:1:8", sampleSwitchEntity)]
    ["AA:11"] (fun _ => .ok ()) "AA:11:1:8" ⟨none, some 50⟩ sampleSwitchEntity 50).2
    rfl (by simp [sampleSwitchEntity]) rfl (Or.inl (by simp [sampleSwitchEntity]))

/-- Claim C5 (counterexample): the claim states that display-name
disambiguation runs once over the whole batch of entities built from all
endpoints, so two entities both named "Lamp" on endpoints "Main" and "Office"
would be renamed to "Lamp (Main)" and "Lamp (Office)".  In the source the
disambiguation runs inside `buildEntitiesFromAccessories`, once per endpoint,
so the cross-endpoint collision is not renamed: both entities keep the bare
name "Lamp". -/
theorem C5_counterexample :
    ((refreshEntities sampleUuids
        [(mainEndpoint, some [lampAccessory]), (officeEndpoint, some [lampAccessory])]).map
      (fun kv => kv.2.name) = ["Lamp", "Lamp"]) ∧
    ((refreshEntities sampleUuids
        [(mainEndpoint, some [lampAccessory]), (officeEndpoint, some [lampAccessory])]).map
      (fun kv => kv.2.name) ≠ ["Lamp (Main)", "Lamp (Office)"]) := by
  constructor
  · rfl
  · decide

/-- Claim C5 (amended): display-name disambiguation runs once per endpoint,
over the batch of entities built from that endpoint's accessory graph: an
entity whose name is shared by at least two entities of its endpoint's batch
gets the endpoint's display name appended in parentheses, and an entity whose
name collides with no other entity of its endpoint's batch keeps its bare
name; collisions across endpoints are not disambiguated. -/
theorem C5_per_endpoint_disambiguation (u : HapUuids) (bridge : HapBridgeEndpoint)
    (accessories : List HapAccessory) :
    (buildEntitiesFromAccessories u bridge accessories).map (fun e => e.name) =
      (rawEntities u bridge accessories).map (fun e =>
        if 2 ≤ ((rawEntities u bridge accessories).filter
            (fun other => other.name == e.name)).length
        then e.name ++ " (" ++ bridge.name ++ ")"
        else e.name) := by
  unfold buildEntitiesFromAccessories disambiguateNames
  rw [List.map_map]
  apply List.map_congr_left
  intro e he
  by_cases hc : 2 ≤ ((rawEntities u bridge accessories).filter
      (fun other => other.name == e.name)).length
  · have hb : e.bridge = ⟨bridge.username, bridge.name, bridge.port⟩ :=
      rawEntities_bridge u bridge accessories e he
    simp only [Function.comp_apply, if_pos hc, hb]
  · simp only [Function.comp_apply, if_neg hc]

/-- Claim C8: for a `setEntity` call that reaches the protocol write (entity
found, client available, a non-empty write batch built), a write failure is
propagated unchanged as `writeFailed` and the registry map is left completely
untouched, while only a successful write patches the observed state and
returns the updated entity, which is also stored back into the map. -/
theorem C8_write_failure_preserves_state (entities : List (String × HbEntity))
    (clients : List String) (writeOutcome : List HapWrite → Except WriteFailure Unit)
    (entityId : String) (patch : HbEntityPatch) (e : HbEntity)
    (writes : List HapWrite) (f : WriteFailure)
    (hfound : lookupEntity entities entityId = some e)
    (hclient : e.bridge.username ∈ clients)
    (hwrites : buildWrites e patch = .ok writes)
    (hne : writes ≠ []) :
    (writeOutcome writes = .error f →
      setEntity entities clients writeOutcome entityId patch =
        (.error (.writeFailed f), entities)) ∧
    (writeOutcome writes = .ok () →
      setEntity entities clients writeOutcome entityId patch =
        (.ok (applyPatch e patch), mapSet entities entityId (applyPatch e patch))) := by
  have hempty : writes.isEmpty = false := by
    cases writes with
    | nil => exact absurd rfl hne
    | cons a l => rfl
  constructor
  · intro hw
    simp [setEntity, hfound, hclient, hwrites, hempty, hw]
  · intro hw
    simp [setEntity, hfound, hclient, hwrites, hempty, hw]

/-- Claim C8 (witness): a failed write against a concrete light entity
propagates the HTTP failure and leaves the registry map unchanged. -/
theorem C8_witness :
    setEntity [("AA:11:2:3", sampleLightEntity)] ["AA:11"]
      (fun _ => .error (.httpError 500 "boom")) "AA:11:2:3" ⟨some true, none⟩ =
      (.error (.writeFailed (.httpError 500 "boom")), [("AA:11:2:3", sampleLightEntity)]) :=
  (C8_write_failure_preserves_state [("AA:11:2:3", sampleLightEntity)] ["AA:11"]
    (fun _ => .error (.httpError 500 "boom")) "AA:11:2:3" ⟨some true, none⟩
    sampleLightEntity [⟨2, 4, .bool true⟩] (.httpError 500 "boom")
    rfl (by simp [sampleLightEntity]) (by simp [buildWrites, sampleLightEntity]) (by decide)).1 rfl

/-- Claim C6: once the daily count has reached the daily cap, the proposal
loop stops entirely at the next iteration — it emits only the quota message,
leaves the state untouched, persists nothing, and never evaluates any later
proposal (the result is the same for every remainder list); through
`executeHealingActions`, on a date matching the stored quota date, a proposal
arriving with the counter at the cap is denied the same way. -/
theorem C6_quota_circuit_breaker (commands : List HealCommand)
    (maxActionsPerDay : Nat) (parseDate : String → Option Int)
    (isoOfTime : Int → String) (runShell : String → ShellResult) (now : Int)
    (st : GuardState) (action : HealAction) (rest : List HealAction)
    (today : String)
    (h : maxActionsPerDay ≤ st.actionQuota.count) :
    healLoop commands maxActionsPerDay parseDate isoOfTime runShell now st
        (action :: rest) = ([.quotaReached], st, 0) ∧
    (st.actionQuota.date = today →
      executeHealingActions true commands maxActionsPerDay parseDate isoOfTime
          runShell now today st (action :: rest) = ([.quotaReached], st, 0)) := by
  have hstep : healStep commands maxActionsPerDay parseDate isoOfTime runShell now st
      action = .stop .quotaReached := by
    simp [healStep, h]
  constructor
  · simp [healLoop, hstep]
  · intro hdate
    simp [executeHealingActions, hdate, healLoop, hstep]

/-- Claim C6 (witness): with a daily quota of 5 and today's count already at 5,
a further proposal on the same calendar date is denied with the quota message
and nothing is executed or persisted. -/
theorem C6_witness :
    healLoop [⟨"restart", "Restart", "sudo systemctl restart homebridge", 60⟩] 5
        (fun _ => none) (fun _ => "") (fun _ => .ok "" "") 0
        ⟨[], ⟨"2026-10-12", 5⟩⟩ [⟨"restart", "no cooldown conflict"⟩] =
      ([.quotaReached], ⟨[], ⟨"2026-10-12", 5⟩⟩, 0) ∧
    executeHealingActions true [⟨"restart", "Restart", "sudo systemctl restart homebridge", 60⟩]
        5 (fun _ => none) (fun _ => "") (fun _ => .ok "" "") 0 "2026-10-12"
        ⟨[], ⟨"2026-10-12", 5⟩⟩ [⟨"restart", "no cooldown conflict"⟩] =
      ([.quotaReached], ⟨[], ⟨"2026-10-12", 5⟩⟩, 0) :=
  ⟨(C6_quota_circuit_breaker [⟨"restart", "Restart", "sudo systemctl restart homebridge", 60⟩]
      5 (fun _ => none) (fun _ => "") (fun _ => .ok "" "") 0
      ⟨[], ⟨"2026-10-12", 5⟩⟩ ⟨"restart", "no cooldown conflict"⟩ [] "2026-10-12"
      (by decide)).1,
   (C6_quota_circuit_breaker [⟨"restart", "Restart", "sudo systemctl restart homebridge", 60⟩]
      5 (fun _ => none) (fun _ => "") (fun _ => .ok "" "") 0
      ⟨[], ⟨"2026-10-12", 5⟩⟩ ⟨"restart", "no cooldown conflict"⟩ [] "2026-10-12"
      (by decide)).2 rfl⟩

/-- Claim C7: for a proposal whose command is configured and has a recorded
(non-empty, parsable) last-run timestamp, and with quota remaining, the
proposal is skipped with the cooldown reason exactly when strictly less than
`cooldownMinutes` have elapsed since that timestamp; once at least
`cooldownMinutes` have elapsed the command is attempted (executed, or reported
failed, by the shell outcome). -/
theorem C7_cooldown_gate (commands : List HealCommand) (maxActionsPerDay : Nat)
    (parseDate : String → Option Int) (isoOfTime : Int → String)
    (runShell : String → ShellResult) (now : Int) (st : GuardState)
    (action : HealAction) (cmd : HealCommand) (tIso : String) (tLast : Int)
    (hcount : st.actionQuota.count < maxActionsPerDay)
    (hcmd : commandMapGet commands action.commandId = some cmd)
    (hlast : lookupStr st.commandCooldowns ("cmd:" ++ cmd.id) = some tIso)
    (hne : tIso ≠ "")
    (hparse : parseDate tIso = some tLast) :
    (healStep commands maxActionsPerDay parseDate isoOfTime runShell now st action =
        .cont (.skippedCooldown cmd.label) st false ↔
      now - tLast < cmd.cooldownMinutes * 60000) ∧
    (cmd.cooldownMinutes * 60000 ≤ now - tLast →
      healStep commands maxActionsPerDay parseDate isoOfTime runShell now st action =
        match runShell cmd.command with
        | .ok stdout stderr =>
          .cont (.executed cmd.label action.reason (jsTrim (stdout ++ " " ++ stderr)))
            (recordRun isoOfTime now ("cmd:" ++ cmd.id) st) true
        | .err message => .cont (.failed cmd.label message) st false) := by
  have hq : ¬ maxActionsPerDay ≤ st.actionQuota.count := Nat.not_le.mpr hcount
  have hcool : cooldownActive parseDate now st.commandCooldowns ("cmd:" ++ cmd.id)
      cmd.cooldownMinutes = decide (now - tLast < cmd.cooldownMinutes * 60000) := by
    simp [cooldownActive, hlast, hne, hparse]
  constructor
  · by_cases hc : now - tLast < cmd.cooldownMinutes * 60000
    · simp [healStep, hq, hcmd, hcool, hc]
    · simp only [healStep, if_neg hq, hcmd, hcool, hc, decide_False, Bool.false_eq_true,
        if_false]
      constructor
      · intro hcontra
        cases hrs : runShell cmd.command <;> rw [hrs] at hcontra <;> cases hcontra
      · intro hcontra
        exact hcontra.elim
  · intro hge
    have hc : ¬ now - tLast < cmd.cooldownMinutes * 60000 := not_lt.mpr hge
    simp [healStep, hq, hcmd, hcool, hc]

/-- Claim C7 (witness): with a 60-minute cooldown and a command last run at
time 0, the proposal is denied 30 minutes later and allowed (and executed) 61
minutes later. -/
theorem C7_witness :
    healStep [⟨"r", "Restart", "cmd", 60⟩] 5 (fun s => if s = "E0" then some 0 else none)
        (fun _ => "E1") (fun _ => .ok "done" "") 1800000
        ⟨[("cmd:r", "E0")], ⟨"2026-10-12", 0⟩⟩ ⟨"r", "why"⟩ =
      .cont (.skippedCooldown "Restart") ⟨[("cmd:r", "E0")], ⟨"2026-10-12", 0⟩⟩ false ∧
    healStep [⟨"r", "Restart", "cmd", 60⟩] 5 (fun s => if s = "E0" then some 0 else none)
        (fun _ => "E1") (fun _ => .ok "done" "") 3660000
        ⟨[("cmd:r", "E0")], ⟨"2026-10-12", 0⟩⟩ ⟨"r", "why"⟩ =
      .cont (.executed "Restart" "why" "done")
        (recordRun (fun _ => "E1") 3660000 "cmd:r" ⟨[("cmd:r", "E0")], ⟨"2026-10-12", 0⟩⟩)
        true :=
  ⟨(C7_cooldown_gate [⟨"r", "Restart", "cmd", 60⟩] 5
      (fun s => if s = "E0" then some 0 else none) (fun _ => "E1")
      (fun _ => .ok "done" "") 1800000 ⟨[("cmd:r", "E0")], ⟨"2026-10-12", 0⟩⟩
      ⟨"r", "why"⟩ ⟨"r", "Restart", "cmd", 60⟩ "E0" 0
      (by decide) rfl rfl (by decide) rfl).1.mpr (by decide),
   (C7_cooldown_gate [⟨"r", "Restart", "cmd", 60⟩] 5
      (fun s => if s = "E0" then some 0 else none) (fun _ => "E1")
      (fun _ => .ok "done" "") 3660000 ⟨[("cmd:r", "E0")], ⟨"2026-10-12", 0⟩⟩
      ⟨"r", "why"⟩ ⟨"r", "Restart", "cmd", 60⟩ "E0" 0
      (by decide) rfl rfl (by decide) rfl).2 (by decide)⟩

/-- Setting a key of a plain-object map makes lookup of that key return the
new value. -/
theorem lookupStr_mapSetStr (m : List (String × String)) (k v : String) :
    lookupStr (mapSetStr m k v) k = some v := by
  induction m with
  | nil => simp [mapSetStr, lookupStr]
  | cons a m ih =>
    by_cases ha : a.1 = k
    · simp [mapSetStr, lookupStr, ha]
    · have ha' : (a.1 == k) = false := by simp [ha]
      by_cases hany : m.any (fun kv => kv.1 == k)
      · have hm : mapSetStr m k v = m.map (fun kv => if kv.1 == k then (k, v) else kv) := by
          simp [mapSetStr, hany]
        have : mapSetStr (a :: m) k v =
            a :: m.map (fun kv => if kv.1 == k then (k, v) else kv) := by
          simp [mapSetStr, List.any_cons, ha', hany, ha]
        rw [this]
        have := ih
        rw [hm] at this
        simpa [lookupStr, List.find?, ha'] using this
      · have hanyb : (m.any (fun kv => kv.1 == k)) = false := by
          simpa only [Bool.not_eq_true] using hany
        have hm : mapSetStr m k v = m ++ [(k, v)] := by
          simp [mapSetStr, hanyb]
        have : mapSetStr (a :: m) k v = a :: (m ++ [(k, v)]) := by
          simp [mapSetStr, List.any_cons, ha', hanyb]
        rw [this]
        have := ih
        rw [hm] at this
        simpa [lookupStr, List.find?, ha'] using this

/-- Claim C10: for a proposal that passes the quota, allowlist and cooldown
gates, a shell execution that throws leaves the guard state completely
unchanged and persists nothing (so no cooldown starts and no quota is
consumed, and the same command may be attempted again immediately), while a
successful execution records the last-run timestamp under the command's
cooldown key, increments the daily count, and flags the state for
persistence. -/
theorem C10_failed_execution_consumes_nothing (commands : List HealCommand)
    (maxActionsPerDay : Nat) (parseDate : String → Option Int)
    (isoOfTime : Int → String) (runShell : String → ShellResult) (now : Int)
    (st : GuardState) (action : HealAction) (cmd : HealCommand)
    (hcount : st.actionQuota.count < maxActionsPerDay)
    (hcmd : commandMapGet commands action.commandId = some cmd)
    (hcool : cooldownActive parseDate now st.commandCooldowns ("cmd:" ++ cmd.id)
      cmd.cooldownMinutes = false) :
    (∀ message, runShell cmd.command = .err message →
      healStep commands maxActionsPerDay parseDate isoOfTime runShell now st action =
        .cont (.failed cmd.label message) st false) ∧
    (∀ stdout stderr, runShell cmd.command = .ok stdout stderr →
      healStep commands maxActionsPerDay parseDate isoOfTime runShell now st action =
        .cont (.executed cmd.label action.reason (jsTrim (stdout ++ " " ++ stderr)))
          (recordRun isoOfTime now ("cmd:" ++ cmd.id) st) true ∧
      lookupStr (recordRun isoOfTime now ("cmd:" ++ cmd.id) st).commandCooldowns
          ("cmd:" ++ cmd.id) = some (isoOfTime now) ∧
      (recordRun isoOfTime now ("cmd:" ++ cmd.id) st).actionQuota.count =
        st.actionQuota.count + 1) := by
  have hq : ¬ maxActionsPerDay ≤ st.actionQuota.count := Nat.not_le.mpr hcount
  constructor
  · intro message hrs
    simp [healStep, hq, hcmd, hcool, hrs]
  · intro stdout stderr hrs
    refine ⟨by simp [healStep, hq, hcmd, hcool, hrs], ?_, rfl⟩
    exact lookupStr_mapSetStr st.commandCooldowns ("cmd:" ++ cmd.id) (isoOfTime now)

/-- Claim C10 (witness): a timed-out execution of a concrete command changes
nothing in the guard state and does not persist, so an immediate retry is not
in cooldown. -/
theorem C10_witness :
    healStep [⟨"r", "Restart", "cmd", 60⟩] 5 (fun _ => none) (fun _ => "E1")
        (fun _ => .err "Command failed: timeout") 0 ⟨[], ⟨"2026-10-12", 0⟩⟩ ⟨"r", "why"⟩ =
      .cont (.failed "Restart" "Command failed: timeout") ⟨[], ⟨"2026-10-12", 0⟩⟩ false :=
  (C10_failed_execution_consumes_nothing [⟨"r", "Restart", "cmd", 60⟩] 5
    (fun _ => none) (fun _ => "E1") (fun _ => .err "Command failed: timeout") 0
    ⟨[], ⟨"2026-10-12", 0⟩⟩ ⟨"r", "why"⟩ ⟨"r", "Restart", "cmd", 60⟩
    (by decide) rfl rfl).1 "Command failed: timeout" rfl

/-- Claim C9 (counterexample): the claim's resolution rule fails on the code.
In `config9`/`store9`, the first child bridge's port is resolvable from the
credential store per the claim (51827, with an explicit pin), yet discovery
excludes it because the source never reads ports from the store; and the
second child bridge has no pin of its own in configuration or store, so per
the claim it should be excluded, yet discovery includes it through the
main-bridge-pin fallback the claim does not mention. -/
theorem C9_counterexample :
    claimC9Holds store9 config9 = false ∧
    discoverHapBridgeEndpoints store9 config9 =
      [⟨"0E:B7:C8:D0:E5:F2", 51826, "031-45-154", "Homebridge", .main⟩,
       ⟨"AA:BB:CC:DD:EE:02", 51828, "031-45-154", "Two", .child⟩] := by
  constructor
  · rfl
  · rfl

/-- Claim C9 (amended): a child bridge that declares an identity is included
iff it has an explicitly configured port (the credential store is never
consulted for ports) and a pin resolvable as: explicit configuration, else the
persisted-credential store (identity-exact file lookup first, then a scan over
stored credential files matching the normalized identity), else the main
bridge's pin; a child bridge missing its identity, an explicit port, or any
resolvable pin is silently excluded (the accumulator is returned unchanged,
never a failure). -/
theorem C9_child_bridge_resolution (persistFiles : PersistDir)
    (mainPin : Option String) (seen : List String)
    (endpoints : List HapBridgeEndpoint) (cb : HomebridgeChildBridgeConfig) :
    (∀ u p pin, asString cb.username = some u → asNumber cb.port = some p →
      ((asString cb.pin).orElse
          (fun _ => loadAccessoryInfoPin persistFiles u)).orElse (fun _ => mainPin) =
        some pin →
      jsToUpper u ∉ seen →
      addChildBridge persistFiles mainPin (seen, endpoints) (some cb) =
        (seen ++ [jsToUpper u],
         endpoints ++ [⟨jsToUpper u, p, pin, (asString cb.name).getD u, .child⟩])) ∧
    ((asString cb.username = none ∨ asNumber cb.port = none ∨
        (∀ u, asString cb.username = some u →
          ((asString cb.pin).orElse
              (fun _ => loadAccessoryInfoPin persistFiles u)).orElse (fun _ => mainPin) =
            none)) →
      addChildBridge persistFiles mainPin (seen, endpoints) (some cb) =
        (seen, endpoints)) := by
  constructor
  · intro u p pin hu hp hpin hseen
    cases hname : asString cb.name with
    | none => simp [addChildBridge, hu, hp, hpin, hseen, hname]
    | some n => simp [addChildBridge, hu, hp, hpin, hseen, hname]
  · intro hbad
    rcases hbad with hu | hp | hpin
    · simp [addChildBridge, hu]
    · cases hu : asString cb.username with
      | none => simp [addChildBridge, hu, hp]
      | some u => simp [addChildBridge, hu, hp]
    · cases hu : asString cb.username with
      | none => simp [addChildBridge, hu]
      | some u =>
        cases hport : asNumber cb.port with
        | none => simp [addChildBridge, hu, hport]
        | some p => simp [addChildBridge, hu, hport, hpin u hu]

/-- Claim C9 (witness for the amended theorem): a child bridge with an
explicit port and no pin of its own resolves its pin through the
scan-and-match store fallback and is added to the endpoint list. -/
theorem C9_witness :
    addChildBridge
        [("AccessoryInfo.extra.AABBCCDDEE03.json",
          some ⟨some "AA:BB:CC:DD:EE:03", some "222-22-222", some 51900⟩)]
        (some "031-45-154") ([], [])
        (some ⟨some "aa:bb:cc:dd:ee:03", some 51900, none, none⟩) =
      (["AA:BB:CC:DD:EE:03"],
       [⟨"AA:BB:CC:DD:EE:03", 51900, "222-22-222", "aa:bb:cc:dd:ee:03", .child⟩]) :=
  (C9_child_bridge_resolution
    [("AccessoryInfo.extra.AABBCCDDEE03.json",
      some ⟨some "AA:BB:CC:DD:EE:03", some "222-22-222", some 51900⟩)]
    (some "031-45-154") [] [] ⟨some "aa:bb:cc:dd:ee:03", some 51900, none, none⟩).1
    "aa:bb:cc:dd:ee:03" 51900 "222-22-222" rfl rfl (by decide) (by decide)

end LLMControl
